import Mathlib

/-! The iteration driver of `cfd` (src/C-GPU/cfd.c).

A shallow embedding of `main` of `cfd.c`, the driver of a Jacobi solver for the
stream function / vorticity formulation of a two-dimensional flow.

Conventions of the embedding.

* The C type `double` is an arbitrary type `α` together with a record `Ops α` of
  the operations `main` applies to doubles. Every theorem holds for every choice
  of `α` and of the operations, IEEE arithmetic included.
* An array `double a[m+2][n+2]` is a function from two `int` indices to `α`.
* The routines of `boundary.h`, `jacobi.h`, `cfdio.h` and of the C library that
  `main` calls are the fields of a record `Routines α`. An array routine returns
  the new contents of the arrays it is given as outputs.
* Objects that `main` reads or may read before writing them (`error`, and the
  arrays, which are declared without initialiser) start from a record
  `Indeterminate α`.
* Values of type `int` are mathematical integers: the model covers the
  executions without signed overflow, the ones to which C gives a meaning.
* The OpenMP directives are not modelled: the model is the sequential meaning of
  the program text.
* Every call of a routine and every `printf` is recorded, in program order, in a
  trace of `Event`s carried by the state.
-/

namespace Cfd

/-- A two-dimensional C array of doubles, indexed by two `int`s. -/
abbrev Grid (α : Type) := Int → Int → α

/-- The assignment `g[i][j] = v`. -/
def Grid.set {α : Type} (g : Grid α) (i j : Int) (v : α) : Grid α :=
  fun a b => if a = i ∧ b = j then v else g a b

/-- The operations on `double` that `main` uses. -/
structure Ops (α : Type) where
  /-- The literal `0.0`. -/
  zero : α
  /-- The literal `-1.0`. -/
  negOne : α
  /-- The conversion of an `int` to `double`. -/
  ofInt : Int → α
  add : α → α → α
  sub : α → α → α
  mul : α → α → α
  div : α → α → α
  sqrt : α → α
  /-- The comparison `x > y`. -/
  gt : α → α → Bool

/-- Modelled from the spec: the routines that `main` calls and whose definitions
are in `boundary.h`, `jacobi.h`, `cfdio.h` (absent from src/) or in the C
library. They are parameters of the model. Each array routine maps the arrays it
receives to the new contents of its output arrays: `jacobistep` writes its
first array argument, `jacobistepvort` its first two (`zetnew`, `psinew`),
`boundarypsi` writes `psi` and `boundaryzet` writes `zet` (spec 4.1 to 4.4). -/
structure Routines (α : Type) where
  atoi : String → Int
  atof : String → α
  /-- The value returned by the k-th call of `gettime()`. -/
  gettime : Nat → α
  /-- The call `boundarypsi(m,n,psi,b,h,w)`, giving the new `psi`. -/
  boundarypsi : Int → Int → Grid α → Int → Int → Int → Grid α
  /-- The call `boundaryzet(m,n,zet,psi)`, giving the new `zet`. -/
  boundaryzet : Int → Int → Grid α → Grid α → Grid α
  /-- The call `jacobistep(m,n,psitmp,psi)`, giving the new `psitmp`. -/
  jacobistep : Int → Int → Grid α → Grid α → Grid α
  /-- The call `jacobistepvort(m,n,zettmp,psitmp,zet,psi,re)`, giving the new
  `zettmp` and the new `psitmp`. -/
  jacobistepvort : Int → Int → Grid α → Grid α → Grid α → Grid α → α → Grid α × Grid α
  /-- The call `deltasq(m,n,new,old)`. -/
  deltasq : Int → Int → Grid α → Grid α → α

/-- The contents of the objects `main` declares without initialiser. -/
structure Indeterminate (α : Type) where
  error : α
  psi : Grid α
  psitmp : Grid α
  zet : Grid α
  zettmp : Grid α

/-- The observable actions of `main`, in the order of the program text. -/
inductive Event (α : Type) where
  | printUsage
  | printConfig (scalefactor numiter : Int)
  | printConfigTol (scalefactor numiter : Int) (tolerance : α)
  | printIrrotational
  | printReynolds (re : α)
  | printGrid (m n : Int)
  | callBoundarypsi (m n b h w : Int)
  | callBoundaryzet
  | printStart
  | callGettime
  | callJacobistep (iter : Int)
  | callJacobistepvort (iter : Int) (re : α)
  | callDeltasqPsi (iter : Int)
  | callDeltasqZet (iter : Int)
  | copyPsi (iter : Int)
  | copyZet (iter : Int)
  | printCompleted (iter : Int)
  | printCompletedErr (iter : Int) (error : α)
  | printFinished
  | printAfter (iter : Int) (error : α)
  | printTime (iter : Int) (ttot : α)
  | printEach (titer : α)
  | printDone
  deriving DecidableEq

/-- The variables of `main` that are fixed once the loop starts. -/
structure Config (α : Type) where
  scalefactor : Int
  numiter : Int
  irrotational : Bool
  checkerr : Bool
  tolerance : α
  re : α
  m : Int
  n : Int
  b : Int
  h : Int
  w : Int
  bnorm : α
  tstart : α

/-- The variables of `main` that the loop changes, and the trace. -/
structure State (α : Type) where
  psi : Grid α
  psitmp : Grid α
  zet : Grid α
  zettmp : Grid α
  error : α
  iter : Int
  trace : List (Event α)

def printfreq : Int := 1000
def bbase : Int := 10
def hbase : Int := 15
def wbase : Int := 5
def mbase : Int := 32
def nbase : Int := 32

/-- The loop `for (i = start; i < start + count; i++) body`. -/
def forLoop {σ : Type} (start : Int) : Nat → (Int → σ → σ) → σ → σ
  | 0, _, s => s
  | k + 1, body, s => forLoop (start + 1) k body (body start s)

/-- Lines 103-109 and 115-121: `for (i=0;i<m+2;i++) for (j=0;j<n+2;j++) g[i][j]=0.0`. -/
def zeroGrid {α : Type} (ops : Ops α) (m n : Int) (g : Grid α) : Grid α :=
  forLoop 0 (m + 2).toNat
    (fun i g1 => forLoop 0 (n + 2).toNat (fun j g2 => g2.set i j ops.zero) g1) g

/-- Lines 132-138 and 147-153:
`for (i=0;i<m+2;i++) for (j=0;j<n+2;j++) bnorm += g[i][j]*g[i][j]`. -/
def sumSquares {α : Type} (ops : Ops α) (m n : Int) (g : Grid α) (bnorm : α) : α :=
  forLoop 0 (m + 2).toNat
    (fun i acc1 => forLoop 0 (n + 2).toNat
      (fun j acc2 => ops.add acc2 (ops.mul (g i j) (g i j))) acc1) bnorm

/-- Lines 202-208 and 212-218:
`for (i=1;i<=m;i++) for (j=1;j<=n;j++) dst[i][j]=src[i][j]`. -/
def copyBack {α : Type} (m n : Int) (dst src : Grid α) : Grid α :=
  forLoop 1 m.toNat
    (fun i g1 => forLoop 1 n.toNat (fun j g2 => g2.set i j (src i j)) g1) dst

/-- Lines 130-156 as a function of the fields after boundary setup: the sum of
the squares of `psi`, then of `zet` in rotational mode, then the square root. -/
def bnormOf {α : Type} (ops : Ops α) (m n : Int) (irrotational : Bool)
    (psi zet : Grid α) : α :=
  let bnorm := sumSquares ops m n psi ops.zero
  let bnorm := if !irrotational then sumSquares ops m n zet bnorm else bnorm
  ops.sqrt bnorm

/-- Lines 39-43: `checkerr` is set when `tolerance > 0`. The second argument is
the initialiser of `tolerance`, `0.0` in the source. -/
def checkerrOf {α : Type} (ops : Ops α) (tolerance : α) : Bool :=
  ops.gt tolerance (ops.ofInt 0)

/-- Lines 53-162: parsing, the configuration lines, the allocation and zeroing
of the arrays, the boundary conditions and the normalisation factor. -/
def setup {α : Type} (ops : Ops α) (env : Routines α) (ind : Indeterminate α)
    (tolerance : α) (argc : Int) (argv : List String) : Config α × State α :=
  let checkerr := checkerrOf ops tolerance
  let scalefactor := env.atoi (argv.getD 1 "")
  let numiter := env.atoi (argv.getD 2 "")
  let re := if argc = 4 then env.atof (argv.getD 3 "") else ops.negOne
  let irrotational := if argc = 4 then false else true
  let trace : List (Event α) :=
    [if !checkerr then Event.printConfig scalefactor numiter
     else Event.printConfigTol scalefactor numiter tolerance]
  let trace := trace ++
    [if irrotational then Event.printIrrotational else Event.printReynolds re]
  let b := bbase * scalefactor
  let h := hbase * scalefactor
  let w := wbase * scalefactor
  let m := mbase * scalefactor
  let n := nbase * scalefactor
  let re := ops.div re (ops.ofInt scalefactor)
  let trace := trace ++ [Event.printGrid m n]
  let psi := zeroGrid ops m n ind.psi
  let zet := if !irrotational then zeroGrid ops m n ind.zet else ind.zet
  let psi := env.boundarypsi m n psi b h w
  let trace := trace ++ [Event.callBoundarypsi m n b h w]
  let bnorm := sumSquares ops m n psi ops.zero
  let zet := if !irrotational then env.boundaryzet m n zet psi else zet
  let trace := if !irrotational then trace ++ [Event.callBoundaryzet] else trace
  let bnorm := if !irrotational then sumSquares ops m n zet bnorm else bnorm
  let bnorm := ops.sqrt bnorm
  let trace := trace ++ [Event.printStart]
  let tstart := env.gettime 0
  let trace := trace ++ [Event.callGettime]
  ({ scalefactor := scalefactor, numiter := numiter, irrotational := irrotational,
     checkerr := checkerr, tolerance := tolerance, re := re,
     m := m, n := n, b := b, h := h, w := w, bnorm := bnorm, tstart := tstart },
   { psi := psi, psitmp := ind.psitmp, zet := zet, zettmp := ind.zettmp,
     error := ind.error, iter := 1, trace := trace })

/-- Lines 174-181: the Jacobi step of the mode, into the scratch arrays. -/
def stepPhase {α : Type} (env : Routines α) (cfg : Config α) (s : State α) : State α :=
  if cfg.irrotational then
    { s with psitmp := env.jacobistep cfg.m cfg.n s.psitmp s.psi,
             trace := s.trace ++ [Event.callJacobistep s.iter] }
  else
    let r := env.jacobistepvort cfg.m cfg.n s.zettmp s.psitmp s.zet s.psi cfg.re
    { s with zettmp := r.1, psitmp := r.2,
             trace := s.trace ++ [Event.callJacobistepvort s.iter cfg.re] }

/-- Lines 185-196: the relative error, when `checkerr || iter == numiter`. -/
def errorPhase {α : Type} (ops : Ops α) (env : Routines α) (cfg : Config α)
    (s : State α) : State α :=
  if cfg.checkerr || decide (s.iter = cfg.numiter) then
    let error := env.deltasq cfg.m cfg.n s.psitmp s.psi
    let trace := s.trace ++ [Event.callDeltasqPsi s.iter]
    let error :=
      if !cfg.irrotational then ops.add error (env.deltasq cfg.m cfg.n s.zettmp s.zet)
      else error
    let trace := if !cfg.irrotational then trace ++ [Event.callDeltasqZet s.iter] else trace
    let error := ops.sqrt error
    let error := ops.div error cfg.bnorm
    { s with error := error, trace := trace }
  else s

/-- Lines 198-219: the copy-back of `psitmp` into `psi` and, in rotational
mode, of `zettmp` into `zet`. -/
def copyPhase {α : Type} (cfg : Config α) (s : State α) : State α :=
  let psi := copyBack cfg.m cfg.n s.psi s.psitmp
  let trace := s.trace ++ [Event.copyPsi s.iter]
  let zet := if !cfg.irrotational then copyBack cfg.m cfg.n s.zet s.zettmp else s.zet
  let trace := if !cfg.irrotational then trace ++ [Event.copyZet s.iter] else trace
  { s with psi := psi, zet := zet, trace := trace }

/-- Lines 221-225: in rotational mode, `boundaryzet(m,n,zet,psi)`. -/
def boundaryPhase {α : Type} (env : Routines α) (cfg : Config α) (s : State α) : State α :=
  if !cfg.irrotational then
    { s with zet := env.boundaryzet cfg.m cfg.n s.zet s.psi,
             trace := s.trace ++ [Event.callBoundaryzet] }
  else s

/-- Lines 244-254: the progress line, every `printfreq` iterations. The early
exit of lines 233-240 is commented out in the source and has no counterpart. -/
def printPhase {α : Type} (cfg : Config α) (s : State α) : State α :=
  if Int.tmod s.iter printfreq = 0 then
    if !cfg.checkerr then { s with trace := s.trace ++ [Event.printCompleted s.iter] }
    else { s with trace := s.trace ++ [Event.printCompletedErr s.iter s.error] }
  else s

/-- Lines 171-255: the body of the loop. -/
def loopBody {α : Type} (ops : Ops α) (env : Routines α) (cfg : Config α)
    (s : State α) : State α :=
  printPhase cfg (boundaryPhase env cfg (copyPhase cfg (errorPhase ops env cfg (stepPhase env cfg s))))

/-- The state right after the copy-back of an iteration started in `s`
(lines 171-219). -/
def afterCopyBack {α : Type} (ops : Ops α) (env : Routines α) (cfg : Config α)
    (s : State α) : State α :=
  copyPhase cfg (errorPhase ops env cfg (stepPhase env cfg s))

/-- One turn of the loop of line 170 whose guard holds: the body, then `iter++`. -/
def loopTurn {α : Type} (ops : Ops α) (env : Routines α) (cfg : Config α)
    (s : State α) : State α :=
  let s1 := loopBody ops env cfg s
  { s1 with iter := s1.iter + 1 }

/-- Line 170: `for (iter=1; iter<=numiter; iter++)`, started in a state whose
`iter` is already set; the first argument bounds the number of turns. -/
def mainLoop {α : Type} (ops : Ops α) (env : Routines α) (cfg : Config α) :
    Nat → State α → State α
  | 0, s => s
  | k + 1, s =>
    if s.iter ≤ cfg.numiter then mainLoop ops env cfg k (loopTurn ops env cfg s) else s

/-- Lines 257-278: the clamp of `iter`, the timing and the final summary. -/
def finish {α : Type} (ops : Ops α) (env : Routines α) (cfg : Config α)
    (s : State α) : State α :=
  let iter := if s.iter > cfg.numiter then cfg.numiter else s.iter
  let tstop := env.gettime 1
  let trace := s.trace ++ [Event.callGettime]
  let ttot := ops.sub tstop cfg.tstart
  let titer := ops.div ttot (ops.ofInt iter)
  let trace := trace ++
    [Event.printFinished, Event.printAfter iter s.error, Event.printTime iter ttot,
     Event.printEach titer, Event.printDone]
  { s with iter := iter, trace := trace }

/-- What a run of `main` leaves behind. -/
inductive Outcome (α : Type) where
  /-- The return of line 50, before any array exists. -/
  | usage (ret : Int) (trace : List (Event α))
  /-- The return of line 280. -/
  | finished (ret : Int) (cfg : Config α) (s : State α)

def Outcome.ret {α : Type} : Outcome α → Int
  | .usage r _ => r
  | .finished r _ _ => r

/-- The variables at the return of line 280, when the run gets there. -/
def Outcome.final {α : Type} : Outcome α → Option (State α)
  | .usage _ _ => none
  | .finished _ _ s => some s

/-- The configuration of the run, when it gets past the usage check. -/
def Outcome.config {α : Type} : Outcome α → Option (Config α)
  | .usage _ _ => none
  | .finished _ cfg _ => some cfg

/-- The function `main` with the initialiser of `tolerance` (line 15) as a
parameter. The loop of line 170 is given `numiter` turns, its trip count. -/
def mainWith {α : Type} (ops : Ops α) (env : Routines α) (ind : Indeterminate α)
    (tolerance : α) (argc : Int) (argv : List String) : Outcome α :=
  if argc < 3 ∨ argc > 4 then
    Outcome.usage 0 [Event.printUsage]
  else
    let cs := setup ops env ind tolerance argc argv
    let s := mainLoop ops env cs.1 cs.1.numiter.toNat cs.2
    Outcome.finished 0 cs.1 (finish ops env cs.1 s)

/-- The function `main` of cfd.c: `tolerance` is `0.0`. -/
def main {α : Type} (ops : Ops α) (env : Routines α) (ind : Indeterminate α)
    (argc : Int) (argv : List String) : Outcome α :=
  mainWith ops env ind ops.zero argc argv

/-- The state in which the loop of line 170 is left. -/
def loopExit {α : Type} (ops : Ops α) (env : Routines α) (ind : Indeterminate α)
    (tolerance : α) (argc : Int) (argv : List String) : State α :=
  mainLoop ops env (setup ops env ind tolerance argc argv).1
    (setup ops env ind tolerance argc argv).1.numiter.toNat
    (setup ops env ind tolerance argc argv).2

/-- The state at the start of iteration `k + 1`, after `k` turns of the loop. -/
def stateAfter {α : Type} (ops : Ops α) (env : Routines α) (ind : Indeterminate α)
    (tolerance : α) (argc : Int) (argv : List String) (k : Nat) : State α :=
  mainLoop ops env (setup ops env ind tolerance argc argv).1 k
    (setup ops env ind tolerance argc argv).2

/-- The events of lines 257-278, for the state in which the loop is left. -/
def finishEvents {α : Type} (ops : Ops α) (env : Routines α) (cfg : Config α)
    (s : State α) : List (Event α) :=
  [Event.callGettime, Event.printFinished,
   Event.printAfter (if s.iter > cfg.numiter then cfg.numiter else s.iter) s.error,
   Event.printTime (if s.iter > cfg.numiter then cfg.numiter else s.iter)
     (ops.sub (env.gettime 1) cfg.tstart),
   Event.printEach (ops.div (ops.sub (env.gettime 1) cfg.tstart)
     (ops.ofInt (if s.iter > cfg.numiter then cfg.numiter else s.iter))),
   Event.printDone]

/-! ## Vocabulary of the statements -/

/-- The concatenation of `g start`, `g (start+1)`, ... over `count` iterations. -/
def perIteration {β : Type} (g : Int → List β) (start : Int) : Nat → List β
  | 0 => []
  | k + 1 => g start ++ perIteration g (start + 1) k

/-- The event of the Jacobi step of the mode at an iteration. -/
def stepEvent {α : Type} (cfg : Config α) (iter : Int) : Event α :=
  if cfg.irrotational then Event.callJacobistep iter
  else Event.callJacobistepvort iter cfg.re

/-- The events of the residual evaluation of an iteration. -/
def errEvents {α : Type} (cfg : Config α) (iter : Int) : List (Event α) :=
  if cfg.checkerr || decide (iter = cfg.numiter) then
    Event.callDeltasqPsi iter :: (if !cfg.irrotational then [Event.callDeltasqZet iter] else [])
  else []

/-- The events of the copy-back of an iteration. -/
def copyEvents {α : Type} (cfg : Config α) (iter : Int) : List (Event α) :=
  Event.copyPsi iter :: (if !cfg.irrotational then [Event.copyZet iter] else [])

/-- The event of the boundary refresh of an iteration. -/
def bcEvents {α : Type} (cfg : Config α) : List (Event α) :=
  if !cfg.irrotational then [Event.callBoundaryzet] else []

/-- The progress line of an iteration. -/
def printEvents {α : Type} (cfg : Config α) (iter : Int) (error : α) : List (Event α) :=
  if Int.tmod iter printfreq = 0 then
    [if !cfg.checkerr then Event.printCompleted iter else Event.printCompletedErr iter error]
  else []

/-- All the events of an iteration, `error` being the value of the variable
after the residual evaluation. -/
def bodyEvents {α : Type} (cfg : Config α) (iter : Int) (error : α) : List (Event α) :=
  stepEvent cfg iter :: (errEvents cfg iter ++ copyEvents cfg iter ++ bcEvents cfg
    ++ printEvents cfg iter error)

def Event.isUsage {α : Type} : Event α → Bool
  | .printUsage => true
  | _ => false

def Event.isStep {α : Type} : Event α → Bool
  | .callJacobistep _ => true
  | .callJacobistepvort _ _ => true
  | _ => false

def Event.isCopyPsi {α : Type} : Event α → Bool
  | .copyPsi _ => true
  | _ => false

def Event.isCopy {α : Type} : Event α → Bool
  | .copyPsi _ => true
  | .copyZet _ => true
  | _ => false

def Event.isDeltasq {α : Type} : Event α → Bool
  | .callDeltasqPsi _ => true
  | .callDeltasqZet _ => true
  | _ => false

def Event.isBoundaryzet {α : Type} : Event α → Bool
  | .callBoundaryzet => true
  | _ => false

def Event.isReport {α : Type} : Event α → Bool
  | .printAfter _ _ => true
  | _ => false

/-- The integers `lo`, `lo + 1`, ..., `count` of them. -/
def intRange (lo : Int) : Nat → List Int
  | 0 => []
  | k + 1 => lo :: intRange (lo + 1) k

/-- The index pairs of an array `a[m+2][n+2]`, row by row. -/
def arrayCells (m n : Int) : List (Int × Int) :=
  (intRange 0 (m + 2).toNat).foldr
    (fun i rest => (intRange 0 (n + 2).toNat).map (fun j => (i, j)) ++ rest) []

/-- The accumulation `acc += g[i][j]*g[i][j]` over a list of cells, in order. -/
def addSquares {α : Type} (ops : Ops α) (g : Grid α) (cells : List (Int × Int)) (acc : α) : α :=
  cells.foldl (fun a c => ops.add a (ops.mul (g c.1 c.2) (g c.1 c.2))) acc

/-! ## A sample instance -/

/-- The largest `r` below the bound with `r * r ≤ n`. -/
def isqrtAux (n : Nat) : Nat → Nat
  | 0 => 0
  | k + 1 => if (k + 1) * (k + 1) ≤ n then k + 1 else isqrtAux n k

/-- Exact rational arithmetic as a sample of `Ops`; the square root is exact on
squares of rationals and rounds down numerator and denominator elsewhere. -/
def ratOps : Ops Rat :=
  { zero := 0, negOne := -1, ofInt := fun z => (z : Rat),
    add := fun x y => x + y, sub := fun x y => x - y, mul := fun x y => x * y,
    div := fun x y => x / y,
    sqrt := fun q => mkRat (isqrtAux q.num.toNat q.num.toNat) (isqrtAux q.den q.den),
    gt := fun x y => decide (x > y) }

/-- A sample `atoi`, right on strings of decimal digits. -/
def sampleAtoi (s : String) : Int :=
  Int.ofNat (s.data.foldl (fun acc c => 10 * acc + (c.toNat - 48)) 0)

/-- Modelled from the spec: the irrotational Jacobi step of 4.2, absent from
src/: over the interior `1..m` x `1..n`, `psinew[i][j]` is a quarter of the sum of
the four neighbours of `psi[i][j]`; no other cell of `psinew` is written. -/
def sampleJacobistep (m n : Int) (psinew psi : Grid Rat) : Grid Rat :=
  fun i j =>
    if 1 ≤ i ∧ i ≤ m ∧ 1 ≤ j ∧ j ≤ n then
      (1 / 4 : Rat) * (psi (i - 1) j + psi (i + 1) j + psi i (j - 1) + psi i (j + 1))
    else psinew i j

/-- Modelled from the spec: the vortical Jacobi step of 4.3, absent from src/. -/
def sampleJacobistepvort (m n : Int) (zetnew psinew zet psi : Grid Rat) (re : Rat) :
    Grid Rat × Grid Rat :=
  (fun i j =>
    if 1 ≤ i ∧ i ≤ m ∧ 1 ≤ j ∧ j ≤ n then
      (1 / 4 : Rat) * (zet (i - 1) j + zet (i + 1) j + zet i (j - 1) + zet i (j + 1))
        - (re / 16) * ((psi i (j + 1) - psi i (j - 1)) * (zet (i + 1) j - zet (i - 1) j)
            - (psi (i + 1) j - psi (i - 1) j) * (zet i (j + 1) - zet i (j - 1)))
    else zetnew i j,
   fun i j =>
    if 1 ≤ i ∧ i ≤ m ∧ 1 ≤ j ∧ j ≤ n then
      (1 / 4 : Rat) * (psi (i - 1) j + psi (i + 1) j + psi i (j - 1) + psi i (j + 1) - zet i j)
    else psinew i j)

/-- Modelled from the spec: the residual of 4.4, absent from src/: the sum over
the interior of the squares of `new - old`; by 4.4 the driver adds the ψ and ζ
contributions and takes one square root of the sum. -/
def sampleDeltasq (m n : Int) (newarr oldarr : Grid Rat) : Rat :=
  forLoop 1 m.toNat (fun i acc1 => forLoop 1 n.toNat
    (fun j acc2 => acc2 + (newarr i j - oldarr i j) * (newarr i j - oldarr i j)) acc1) 0

/-- Modelled from the spec: a ψ boundary routine in the sense of 4.1, absent
from src/: it writes a fixed value, `(double)w`, into one cell of the halo, the
cell `[m+1][1]`, and nothing else. -/
def sampleBoundarypsi (m _n : Int) (psi : Grid Rat) (_b _h w : Int) : Grid Rat :=
  psi.set (m + 1) 1 (w : Rat)

/-- Modelled from the spec: the ζ boundary routine of 4.1, absent from src/: on
the four walls, ζ is `-2 (ψ_neighbour - ψ_wall)`. -/
def sampleBoundaryzet (m n : Int) (zet psi : Grid Rat) : Grid Rat :=
  fun i j =>
    if 1 ≤ i ∧ i ≤ m ∧ j = 0 then -2 * (psi i 1 - psi i 0)
    else if 1 ≤ i ∧ i ≤ m ∧ j = n + 1 then -2 * (psi i n - psi i (n + 1))
    else if 1 ≤ j ∧ j ≤ n ∧ i = 0 then -2 * (psi 1 j - psi 0 j)
    else if 1 ≤ j ∧ j ≤ n ∧ i = m + 1 then -2 * (psi m j - psi (m + 1) j)
    else zet i j

/-- A sample of the routines. -/
def sampleEnv : Routines Rat :=
  { atoi := sampleAtoi, atof := fun s => (sampleAtoi s : Rat), gettime := fun k => (k : Rat),
    boundarypsi := sampleBoundarypsi,
    boundaryzet := sampleBoundaryzet,
    jacobistep := sampleJacobistep,
    jacobistepvort := sampleJacobistepvort,
    deltasq := sampleDeltasq }

/-- A sample of the indeterminate contents: every object holds zero. -/
def sampleInd : Indeterminate Rat :=
  { error := 0, psi := fun _ _ => 0, psitmp := fun _ _ => 0, zet := fun _ _ => 0,
    zettmp := fun _ _ => 0 }

/-! ## The counted loops -/

theorem forLoop_set_row {α : Type} (i : Int) (v : Int → α) :
    ∀ (cnt : Nat) (lo : Int) (g : Grid α),
      forLoop lo cnt (fun j g2 => g2.set i j (v j)) g
        = fun a b => if a = i ∧ lo ≤ b ∧ b < lo + cnt then v b else g a b := by
  intro cnt
  induction cnt with
  | zero =>
    intro lo g
    funext a b
    simp only [forLoop]
    exact (if_neg (by omega)).symm
  | succ k ih =>
    intro lo g
    rw [forLoop, ih]
    funext a b
    by_cases h1 : a = i ∧ lo + 1 ≤ b ∧ b < lo + 1 + (k : Int)
    · have h2 : a = i ∧ lo ≤ b ∧ b < lo + ((k + 1 : Nat) : Int) := by omega
      rw [if_pos h1, if_pos h2]
    · rw [if_neg h1]
      by_cases h3 : a = i ∧ b = lo
      · have h2 : a = i ∧ lo ≤ b ∧ b < lo + ((k + 1 : Nat) : Int) := by omega
        rw [if_pos h2]
        simp [Grid.set, h3]
      · have h2 : ¬ (a = i ∧ lo ≤ b ∧ b < lo + ((k + 1 : Nat) : Int)) := by omega
        rw [if_neg h2]
        simp [Grid.set, h3]

theorem forLoop_set_block {α : Type} (v : Int → Int → α) (jlo : Int) (jcnt : Nat) :
    ∀ (cnt : Nat) (lo : Int) (g : Grid α),
      forLoop lo cnt (fun i g1 => forLoop jlo jcnt (fun j g2 => g2.set i j (v i j)) g1) g
        = fun a b =>
            if lo ≤ a ∧ a < lo + cnt ∧ jlo ≤ b ∧ b < jlo + jcnt then v a b else g a b := by
  intro cnt
  induction cnt with
  | zero =>
    intro lo g
    funext a b
    simp only [forLoop]
    exact (if_neg (by omega)).symm
  | succ k ih =>
    intro lo g
    rw [forLoop, ih, forLoop_set_row]
    funext a b
    beta_reduce
    by_cases h1 : lo + 1 ≤ a ∧ a < lo + 1 + (k : Int) ∧ jlo ≤ b ∧ b < jlo + (jcnt : Int)
    · have h2 : lo ≤ a ∧ a < lo + ((k + 1 : Nat) : Int) ∧ jlo ≤ b ∧ b < jlo + (jcnt : Int) := by
        omega
      rw [if_pos h1, if_pos h2]
    · rw [if_neg h1]
      by_cases h3 : a = lo ∧ jlo ≤ b ∧ b < jlo + (jcnt : Int)
      · have h2 : lo ≤ a ∧ a < lo + ((k + 1 : Nat) : Int) ∧ jlo ≤ b ∧ b < jlo + (jcnt : Int) := by
          omega
        rw [if_pos h2, if_pos h3, h3.1]
      · have h2 : ¬ (lo ≤ a ∧ a < lo + ((k + 1 : Nat) : Int) ∧ jlo ≤ b ∧ b < jlo + (jcnt : Int)) := by
          omega
        rw [if_neg h2, if_neg h3]

/-- The zeroing loops write `0.0` to the cells of the array and to no other. -/
theorem zeroGrid_eq {α : Type} (ops : Ops α) (m n : Int) (g : Grid α) :
    zeroGrid ops m n g
      = fun a b => if 0 ≤ a ∧ a < m + 2 ∧ 0 ≤ b ∧ b < n + 2 then ops.zero else g a b := by
  unfold zeroGrid
  rw [forLoop_set_block (fun _ _ => ops.zero)]
  funext a b
  by_cases h : 0 ≤ a ∧ a < m + 2 ∧ 0 ≤ b ∧ b < n + 2
  · have h2 : 0 ≤ a ∧ a < 0 + (((m + 2).toNat : Nat) : Int) ∧ 0 ≤ b
        ∧ b < 0 + (((n + 2).toNat : Nat) : Int) := by omega
    rw [if_pos h, if_pos h2]
  · have h2 : ¬ (0 ≤ a ∧ a < 0 + (((m + 2).toNat : Nat) : Int) ∧ 0 ≤ b
        ∧ b < 0 + (((n + 2).toNat : Nat) : Int)) := by omega
    rw [if_neg h, if_neg h2]

/-- The copy-back loops assign the cells `1..m` x `1..n` and no other. -/
theorem copyBack_eq {α : Type} (m n : Int) (dst src : Grid α) :
    copyBack m n dst src
      = fun a b => if 1 ≤ a ∧ a ≤ m ∧ 1 ≤ b ∧ b ≤ n then src a b else dst a b := by
  unfold copyBack
  rw [forLoop_set_block (fun i j => src i j)]
  funext a b
  by_cases h : 1 ≤ a ∧ a ≤ m ∧ 1 ≤ b ∧ b ≤ n
  · have h2 : 1 ≤ a ∧ a < 1 + ((m.toNat : Nat) : Int) ∧ 1 ≤ b
        ∧ b < 1 + ((n.toNat : Nat) : Int) := by omega
    rw [if_pos h, if_pos h2]
  · have h2 : ¬ (1 ≤ a ∧ a < 1 + ((m.toNat : Nat) : Int) ∧ 1 ≤ b
        ∧ b < 1 + ((n.toNat : Nat) : Int)) := by omega
    rw [if_neg h, if_neg h2]

theorem forLoop_congr {σ : Type} (f g : Int → σ → σ) :
    ∀ (cnt : Nat) (lo : Int) (s : σ),
      (∀ i, lo ≤ i → i < lo + cnt → ∀ t, f i t = g i t) →
      forLoop lo cnt f s = forLoop lo cnt g s := by
  intro cnt
  induction cnt with
  | zero => intro lo s _; rfl
  | succ k ih =>
    intro lo s h
    rw [forLoop, forLoop, h lo (le_refl lo) (by push_cast; omega) s]
    apply ih
    intro i h1 h2 t
    exact h i (by omega) (by push_cast; omega) t

/-- The sum of squares reads the cells of the array and no other. -/
theorem sumSquares_congr {α : Type} (ops : Ops α) (m n : Int) (g1 g2 : Grid α) (acc : α)
    (h : ∀ i j, 0 ≤ i → i < m + 2 → 0 ≤ j → j < n + 2 → g1 i j = g2 i j) :
    sumSquares ops m n g1 acc = sumSquares ops m n g2 acc := by
  unfold sumSquares
  apply forLoop_congr
  intro i hi1 hi2 t
  apply forLoop_congr
  intro j hj1 hj2 u
  rw [h i j hi1 (by omega) hj1 (by omega)]

theorem forLoop_eq_foldl {σ : Type} (body : Int → σ → σ) :
    ∀ (k : Nat) (lo : Int) (s : σ),
      forLoop lo k body s = (intRange lo k).foldl (fun t i => body i t) s := by
  intro k
  induction k with
  | zero => intro lo s; rfl
  | succ k ih => intro lo s; rw [forLoop, intRange, List.foldl_cons, ih]

theorem mem_intRange (x : Int) :
    ∀ (k : Nat) (lo : Int), x ∈ intRange lo k ↔ lo ≤ x ∧ x < lo + k := by
  intro k
  induction k with
  | zero => intro lo; simp [intRange]
  | succ k ih =>
    intro lo
    rw [intRange, List.mem_cons, ih]
    push_cast
    omega

theorem length_intRange : ∀ (k : Nat) (lo : Int), (intRange lo k).length = k := by
  intro k
  induction k with
  | zero => intro lo; rfl
  | succ k ih => intro lo; rw [intRange, List.length_cons, ih]

/-- The cells of the rows `rows`, each row with the columns `cols`. -/
theorem mem_rows (cols : List Int) (i j : Int) :
    ∀ rows : List Int,
      (i, j) ∈ rows.foldr (fun r rest => cols.map (fun c => (r, c)) ++ rest) []
        ↔ i ∈ rows ∧ j ∈ cols := by
  intro rows
  induction rows with
  | nil => simp
  | cons r rows ih =>
    rw [List.foldr_cons, List.mem_append, ih, List.mem_map, List.mem_cons]
    constructor
    · rintro (⟨c, hc, he⟩ | ⟨h1, h2⟩)
      · cases he; exact ⟨Or.inl rfl, hc⟩
      · exact ⟨Or.inr h1, h2⟩
    · rintro ⟨h1 | h1, h2⟩
      · subst h1; exact Or.inl ⟨j, h2, rfl⟩
      · exact Or.inr ⟨h1, h2⟩

theorem length_rows (cols : List Int) :
    ∀ rows : List Int,
      (rows.foldr (fun r rest => cols.map (fun c => (r, c)) ++ rest) []).length
        = rows.length * cols.length := by
  intro rows
  induction rows with
  | nil => simp
  | cons r rows ih =>
    rw [List.foldr_cons, List.length_append, ih, List.length_map, List.length_cons]
    ring

/-- The array has the cells `0..m+1` x `0..n+1`, interior cells included. -/
theorem mem_arrayCells (m n i j : Int) :
    (i, j) ∈ arrayCells m n ↔ 0 ≤ i ∧ i < m + 2 ∧ 0 ≤ j ∧ j < n + 2 := by
  unfold arrayCells
  rw [mem_rows, mem_intRange, mem_intRange]
  omega

theorem length_arrayCells (m n : Int) :
    (arrayCells m n).length = (m + 2).toNat * (n + 2).toNat := by
  unfold arrayCells
  rw [length_rows, length_intRange, length_intRange]

theorem foldl_rows {β : Type} (f : β → Int × Int → β) (cols : List Int) :
    ∀ (rows : List Int) (acc : β),
      rows.foldl (fun a r => cols.foldl (fun b c => f b (r, c)) a) acc
        = (rows.foldr (fun r rest => cols.map (fun c => (r, c)) ++ rest) []).foldl f acc := by
  intro rows
  induction rows with
  | nil => intro acc; rfl
  | cons r rows ih =>
    intro acc
    rw [List.foldl_cons, List.foldr_cons, List.foldl_append, List.foldl_map, ih]

/-- The loops of lines 132-138 add the square of every cell of the array, once,
row by row. -/
theorem sumSquares_eq_addSquares {α : Type} (ops : Ops α) (m n : Int) (g : Grid α) (acc : α) :
    sumSquares ops m n g acc = addSquares ops g (arrayCells m n) acc := by
  unfold sumSquares addSquares arrayCells
  rw [forLoop_eq_foldl]
  have h : (fun (t : α) (i : Int) => forLoop 0 (n + 2).toNat
        (fun j acc2 => ops.add acc2 (ops.mul (g i j) (g i j))) t)
      = (fun t i => (intRange 0 (n + 2).toNat).foldl
          (fun b c => (fun a (p : Int × Int) => ops.add a (ops.mul (g p.1 p.2) (g p.1 p.2)))
            b (i, c)) t) := by
    funext t i
    rw [forLoop_eq_foldl]
  rw [h]
  exact foldl_rows (fun a (p : Int × Int) => ops.add a (ops.mul (g p.1 p.2) (g p.1 p.2)))
    (intRange 0 (n + 2).toNat) (intRange 0 (m + 2).toNat) acc

/-- The sample ζ boundary routine writes no interior cell. -/
theorem sampleBoundaryzet_interior (m n : Int) (zet psi : Grid Rat) (i j : Int)
    (h1 : 1 ≤ i) (h2 : i ≤ m) (h3 : 1 ≤ j) (h4 : j ≤ n) :
    sampleBoundaryzet m n zet psi i j = zet i j := by
  unfold sampleBoundaryzet
  rw [if_neg (by omega), if_neg (by omega), if_neg (by omega), if_neg (by omega)]

/-! ## The phases of the loop body -/

section Phases

variable {α : Type} (ops : Ops α) (env : Routines α) (cfg : Config α) (s : State α)

@[simp]
theorem stepPhase_psi : (stepPhase env cfg s).psi = s.psi := by
  unfold stepPhase; split <;> rfl

@[simp]
theorem stepPhase_zet : (stepPhase env cfg s).zet = s.zet := by
  unfold stepPhase; split <;> rfl

@[simp]
theorem stepPhase_error : (stepPhase env cfg s).error = s.error := by
  unfold stepPhase; split <;> rfl

@[simp]
theorem stepPhase_iter : (stepPhase env cfg s).iter = s.iter := by
  unfold stepPhase; split <;> rfl

@[simp]
theorem stepPhase_trace :
    (stepPhase env cfg s).trace = s.trace ++ [stepEvent cfg s.iter] := by
  unfold stepPhase stepEvent; split <;> rfl

theorem stepPhase_psitmp :
    (stepPhase env cfg s).psitmp
      = if cfg.irrotational then env.jacobistep cfg.m cfg.n s.psitmp s.psi
        else (env.jacobistepvort cfg.m cfg.n s.zettmp s.psitmp s.zet s.psi cfg.re).2 := by
  unfold stepPhase; split <;> rfl

theorem stepPhase_zettmp :
    (stepPhase env cfg s).zettmp
      = if cfg.irrotational then s.zettmp
        else (env.jacobistepvort cfg.m cfg.n s.zettmp s.psitmp s.zet s.psi cfg.re).1 := by
  unfold stepPhase; split <;> rfl

@[simp]
theorem errorPhase_psi : (errorPhase ops env cfg s).psi = s.psi := by
  unfold errorPhase; split <;> rfl

@[simp]
theorem errorPhase_psitmp : (errorPhase ops env cfg s).psitmp = s.psitmp := by
  unfold errorPhase; split <;> rfl

@[simp]
theorem errorPhase_zet : (errorPhase ops env cfg s).zet = s.zet := by
  unfold errorPhase; split <;> rfl

@[simp]
theorem errorPhase_zettmp : (errorPhase ops env cfg s).zettmp = s.zettmp := by
  unfold errorPhase; split <;> rfl

@[simp]
theorem errorPhase_iter : (errorPhase ops env cfg s).iter = s.iter := by
  unfold errorPhase; split <;> rfl

@[simp]
theorem errorPhase_trace :
    (errorPhase ops env cfg s).trace = s.trace ++ errEvents cfg s.iter := by
  unfold errorPhase errEvents
  split
  · cases cfg.irrotational <;> simp
  · simp

theorem errorPhase_error :
    (errorPhase ops env cfg s).error
      = if cfg.checkerr || decide (s.iter = cfg.numiter) then
          ops.div (ops.sqrt
            (if cfg.irrotational then env.deltasq cfg.m cfg.n s.psitmp s.psi
             else ops.add (env.deltasq cfg.m cfg.n s.psitmp s.psi)
                    (env.deltasq cfg.m cfg.n s.zettmp s.zet))) cfg.bnorm
        else s.error := by
  unfold errorPhase
  split
  · cases cfg.irrotational <;> simp
  · rfl

@[simp]
theorem copyPhase_psi :
    (copyPhase cfg s).psi = copyBack cfg.m cfg.n s.psi s.psitmp := rfl

@[simp]
theorem copyPhase_zet :
    (copyPhase cfg s).zet
      = if cfg.irrotational then s.zet else copyBack cfg.m cfg.n s.zet s.zettmp := by
  unfold copyPhase; cases cfg.irrotational <;> rfl

@[simp]
theorem copyPhase_psitmp : (copyPhase cfg s).psitmp = s.psitmp := rfl

@[simp]
theorem copyPhase_zettmp : (copyPhase cfg s).zettmp = s.zettmp := rfl

@[simp]
theorem copyPhase_error : (copyPhase cfg s).error = s.error := rfl

@[simp]
theorem copyPhase_iter : (copyPhase cfg s).iter = s.iter := rfl

@[simp]
theorem copyPhase_trace :
    (copyPhase cfg s).trace = s.trace ++ copyEvents cfg s.iter := by
  unfold copyPhase copyEvents; cases cfg.irrotational <;> simp

@[simp]
theorem boundaryPhase_psi : (boundaryPhase env cfg s).psi = s.psi := by
  unfold boundaryPhase; split <;> rfl

@[simp]
theorem boundaryPhase_psitmp : (boundaryPhase env cfg s).psitmp = s.psitmp := by
  unfold boundaryPhase; split <;> rfl

@[simp]
theorem boundaryPhase_zettmp : (boundaryPhase env cfg s).zettmp = s.zettmp := by
  unfold boundaryPhase; split <;> rfl

@[simp]
theorem boundaryPhase_error : (boundaryPhase env cfg s).error = s.error := by
  unfold boundaryPhase; split <;> rfl

@[simp]
theorem boundaryPhase_iter : (boundaryPhase env cfg s).iter = s.iter := by
  unfold boundaryPhase; split <;> rfl

@[simp]
theorem boundaryPhase_zet :
    (boundaryPhase env cfg s).zet
      = if cfg.irrotational then s.zet else env.boundaryzet cfg.m cfg.n s.zet s.psi := by
  unfold boundaryPhase; cases cfg.irrotational <;> rfl

@[simp]
theorem boundaryPhase_trace :
    (boundaryPhase env cfg s).trace = s.trace ++ bcEvents cfg := by
  unfold boundaryPhase bcEvents; cases cfg.irrotational <;> simp

@[simp]
theorem printPhase_psi : (printPhase cfg s).psi = s.psi := by
  unfold printPhase; split <;> [split; skip] <;> rfl

@[simp]
theorem printPhase_psitmp : (printPhase cfg s).psitmp = s.psitmp := by
  unfold printPhase; split <;> [split; skip] <;> rfl

@[simp]
theorem printPhase_zet : (printPhase cfg s).zet = s.zet := by
  unfold printPhase; split <;> [split; skip] <;> rfl

@[simp]
theorem printPhase_zettmp : (printPhase cfg s).zettmp = s.zettmp := by
  unfold printPhase; split <;> [split; skip] <;> rfl

@[simp]
theorem printPhase_error : (printPhase cfg s).error = s.error := by
  unfold printPhase; split <;> [split; skip] <;> rfl

@[simp]
theorem printPhase_iter : (printPhase cfg s).iter = s.iter := by
  unfold printPhase; split <;> [split; skip] <;> rfl

@[simp]
theorem printPhase_trace :
    (printPhase cfg s).trace = s.trace ++ printEvents cfg s.iter s.error := by
  unfold printPhase printEvents
  split
  · cases cfg.checkerr <;> simp
  · simp

/-! ## The loop body and one turn of the loop -/

theorem loopBody_iter : (loopBody ops env cfg s).iter = s.iter := by
  simp [loopBody]

theorem loopBody_psi :
    (loopBody ops env cfg s).psi
      = copyBack cfg.m cfg.n s.psi (stepPhase env cfg s).psitmp := by
  simp [loopBody]

theorem loopBody_psitmp : (loopBody ops env cfg s).psitmp = (stepPhase env cfg s).psitmp := by
  simp [loopBody]

theorem loopBody_zettmp : (loopBody ops env cfg s).zettmp = (stepPhase env cfg s).zettmp := by
  simp [loopBody]

theorem loopBody_error :
    (loopBody ops env cfg s).error = (errorPhase ops env cfg (stepPhase env cfg s)).error := by
  simp [loopBody]

theorem loopBody_zet :
    (loopBody ops env cfg s).zet
      = if cfg.irrotational then s.zet
        else env.boundaryzet cfg.m cfg.n
          (copyBack cfg.m cfg.n s.zet (stepPhase env cfg s).zettmp)
          (copyBack cfg.m cfg.n s.psi (stepPhase env cfg s).psitmp) := by
  cases h : cfg.irrotational <;> simp [loopBody, h]

theorem loopBody_trace :
    (loopBody ops env cfg s).trace
      = s.trace ++ bodyEvents cfg s.iter
          (errorPhase ops env cfg (stepPhase env cfg s)).error := by
  simp [loopBody, bodyEvents]

@[simp]
theorem loopTurn_iter : (loopTurn ops env cfg s).iter = s.iter + 1 := by
  simp [loopTurn, loopBody_iter]

@[simp]
theorem loopTurn_psi : (loopTurn ops env cfg s).psi = (loopBody ops env cfg s).psi := rfl

@[simp]
theorem loopTurn_psitmp :
    (loopTurn ops env cfg s).psitmp = (loopBody ops env cfg s).psitmp := rfl

@[simp]
theorem loopTurn_zet : (loopTurn ops env cfg s).zet = (loopBody ops env cfg s).zet := rfl

@[simp]
theorem loopTurn_zettmp :
    (loopTurn ops env cfg s).zettmp = (loopBody ops env cfg s).zettmp := rfl

@[simp]
theorem loopTurn_error :
    (loopTurn ops env cfg s).error = (loopBody ops env cfg s).error := rfl

@[simp]
theorem loopTurn_trace :
    (loopTurn ops env cfg s).trace = (loopBody ops env cfg s).trace := rfl

end Phases

/-! ## The loop -/

section Loop

variable {α : Type} (ops : Ops α) (env : Routines α) (cfg : Config α)

/-- A property of the state that every turn preserves holds when the loop ends. -/
theorem mainLoop_preserves (P : State α → Prop)
    (hturn : ∀ t, P t → P (loopTurn ops env cfg t)) :
    ∀ (k : Nat) (s : State α), P s → P (mainLoop ops env cfg k s) := by
  intro k
  induction k with
  | zero => intro s hs; exact hs
  | succ k ih =>
    intro s hs
    unfold mainLoop
    split
    · exact ih _ (hturn s hs)
    · exact hs

/-- As long as the guard allows `k` more turns, the loop makes exactly `k` turns. -/
theorem mainLoop_iter :
    ∀ (k : Nat) (s : State α), (k = 0 ∨ s.iter + k ≤ cfg.numiter + 1) →
      (mainLoop ops env cfg k s).iter = s.iter + k := by
  intro k
  induction k with
  | zero => intro s _; simp [mainLoop]
  | succ k ih =>
    intro s h
    have h2 : s.iter + 1 + k ≤ cfg.numiter + 1 := by
      rcases h with h | h
      · omega
      · push_cast at h; omega
    have hg : s.iter ≤ cfg.numiter := by omega
    unfold mainLoop
    rw [if_pos hg, ih]
    · simp; omega
    · right; simpa using h2

/-- The turn `k+1` of the loop extends the first `k` turns. -/
theorem mainLoop_succ :
    ∀ (k : Nat) (s : State α), s.iter + k ≤ cfg.numiter →
      mainLoop ops env cfg (k + 1) s = loopTurn ops env cfg (mainLoop ops env cfg k s) := by
  intro k
  induction k with
  | zero =>
    intro s h
    have hg : s.iter ≤ cfg.numiter := by simpa using h
    simp [mainLoop, hg]
  | succ k ih =>
    intro s h
    have hg : s.iter ≤ cfg.numiter := by push_cast at h; omega
    have h2 : (loopTurn ops env cfg s).iter + k ≤ cfg.numiter := by
      simp; push_cast at h; omega
    rw [mainLoop, if_pos hg, ih _ h2]
    conv_rhs => rw [mainLoop, if_pos hg]

/-- The events of the loop that a predicate selects, when the events it selects
in the body depend on the iteration number alone. -/
theorem mainLoop_filter (p : Event α → Bool) (g : Int → List (Event α))
    (hg : ∀ iter error, (bodyEvents cfg iter error).filter p = g iter) :
    ∀ (k : Nat) (s : State α), (k = 0 ∨ s.iter + k ≤ cfg.numiter + 1) →
      (mainLoop ops env cfg k s).trace.filter p
        = s.trace.filter p ++ perIteration g s.iter k := by
  intro k
  induction k with
  | zero => intro s _; simp [mainLoop, perIteration]
  | succ k ih =>
    intro s h
    have h2 : s.iter + 1 + k ≤ cfg.numiter + 1 := by
      rcases h with h | h
      · omega
      · push_cast at h; omega
    have hgd : s.iter ≤ cfg.numiter := by omega
    unfold mainLoop
    rw [if_pos hgd, ih]
    · simp [loopBody_trace, hg, perIteration]
    · right; simpa using h2

/-- The trip count `numiter` given to the loop lets it run to its exit. -/
theorem trip_count_ok (numiter : Int) : numiter.toNat = 0 ∨ (1 : Int) + numiter.toNat ≤ numiter + 1 := by
  omega

/-- In irrotational mode a turn of the loop does not touch zet and zettmp, and
what it does to the other variables does not depend on them. -/
theorem loopTurn_irrotational (cfg : Config α) (hI : cfg.irrotational = true)
    (t u : State α) (h1 : u.psi = t.psi) (h2 : u.psitmp = t.psitmp) (h3 : u.error = t.error)
    (h4 : u.iter = t.iter) (h5 : u.trace = t.trace) :
    (loopTurn ops env cfg t).zet = t.zet ∧ (loopTurn ops env cfg t).zettmp = t.zettmp
    ∧ (loopTurn ops env cfg u).psi = (loopTurn ops env cfg t).psi
    ∧ (loopTurn ops env cfg u).psitmp = (loopTurn ops env cfg t).psitmp
    ∧ (loopTurn ops env cfg u).error = (loopTurn ops env cfg t).error
    ∧ (loopTurn ops env cfg u).iter = (loopTurn ops env cfg t).iter
    ∧ (loopTurn ops env cfg u).trace = (loopTurn ops env cfg t).trace := by
  have hp : (stepPhase env cfg u).psitmp = (stepPhase env cfg t).psitmp := by
    rw [stepPhase_psitmp, stepPhase_psitmp, hI, h1, h2]
    simp
  have he : (errorPhase ops env cfg (stepPhase env cfg u)).error
      = (errorPhase ops env cfg (stepPhase env cfg t)).error := by
    rw [errorPhase_error, errorPhase_error, hI, hp]
    simp only [stepPhase_psi, stepPhase_iter, stepPhase_error, h1, h3, h4, if_true]
  refine ⟨?_, ?_, ?_, ?_, ?_, ?_, ?_⟩
  · rw [loopTurn_zet, loopBody_zet, hI]; rfl
  · rw [loopTurn_zettmp, loopBody_zettmp, stepPhase_zettmp, hI]; rfl
  · rw [loopTurn_psi, loopTurn_psi, loopBody_psi, loopBody_psi, hp, h1]
  · rw [loopTurn_psitmp, loopTurn_psitmp, loopBody_psitmp, loopBody_psitmp, hp]
  · rw [loopTurn_error, loopTurn_error, loopBody_error, loopBody_error, he]
  · rw [loopTurn_iter, loopTurn_iter, h4]
  · rw [loopTurn_trace, loopTurn_trace, loopBody_trace, loopBody_trace, he, h4, h5]

/-- In irrotational mode the loop does not touch zet and zettmp, and what it
does to the other variables does not depend on them. -/
theorem mainLoop_irrotational (cfg : Config α) (hI : cfg.irrotational = true) :
    ∀ (k : Nat) (t u : State α), u.psi = t.psi → u.psitmp = t.psitmp → u.error = t.error →
      u.iter = t.iter → u.trace = t.trace →
      (mainLoop ops env cfg k t).zet = t.zet ∧ (mainLoop ops env cfg k t).zettmp = t.zettmp
      ∧ (mainLoop ops env cfg k u).psi = (mainLoop ops env cfg k t).psi
      ∧ (mainLoop ops env cfg k u).psitmp = (mainLoop ops env cfg k t).psitmp
      ∧ (mainLoop ops env cfg k u).error = (mainLoop ops env cfg k t).error
      ∧ (mainLoop ops env cfg k u).iter = (mainLoop ops env cfg k t).iter
      ∧ (mainLoop ops env cfg k u).trace = (mainLoop ops env cfg k t).trace := by
  intro k
  induction k with
  | zero => intro t u h1 h2 h3 h4 h5; exact ⟨rfl, rfl, h1, h2, h3, h4, h5⟩
  | succ k ih =>
    intro t u h1 h2 h3 h4 h5
    obtain ⟨a1, a2, a3, a4, a5, a6, a7⟩ :=
      loopTurn_irrotational ops env cfg hI t u h1 h2 h3 h4 h5
    by_cases hg : t.iter ≤ cfg.numiter
    · have hg2 : u.iter ≤ cfg.numiter := by rw [h4]; exact hg
      obtain ⟨b1, b2, b3⟩ := ih _ _ a3 a4 a5 a6 a7
      have e1 : mainLoop ops env cfg (k + 1) t
          = mainLoop ops env cfg k (loopTurn ops env cfg t) := by
        rw [mainLoop, if_pos hg]
      have e2 : mainLoop ops env cfg (k + 1) u
          = mainLoop ops env cfg k (loopTurn ops env cfg u) := by
        rw [mainLoop, if_pos hg2]
      rw [e1, e2]
      exact ⟨b1.trans a1, b2.trans a2, b3⟩
    · have hg2 : ¬ u.iter ≤ cfg.numiter := by rw [h4]; exact hg
      have e1 : mainLoop ops env cfg (k + 1) t = t := by rw [mainLoop, if_neg hg]
      have e2 : mainLoop ops env cfg (k + 1) u = u := by rw [mainLoop, if_neg hg2]
      rw [e1, e2]
      exact ⟨rfl, rfl, h1, h2, h3, h4, h5⟩

end Loop

/-! ## Sequences of per-iteration events -/

theorem perIteration_nil {β : Type} :
    ∀ (k : Nat) (start : Int), perIteration (fun _ => ([] : List β)) start k = [] := by
  intro k
  induction k with
  | zero => intro start; rfl
  | succ k ih => intro start; simp [perIteration, ih]

theorem perIteration_length_one {β : Type} (g : Int → List β) (hg : ∀ i, (g i).length = 1) :
    ∀ (k : Nat) (start : Int), (perIteration g start k).length = k := by
  intro k
  induction k with
  | zero => intro start; rfl
  | succ k ih => intro start; simp [perIteration, ih, hg]; omega

/-- Only the last iteration contributes when `g` is empty before it. -/
theorem perIteration_last {β : Type} (last : Int) (l : List β) :
    ∀ (k : Nat) (start : Int), start + k = last →
      perIteration (fun i => if i = last then l else []) start (k + 1) = l := by
  intro k
  induction k with
  | zero =>
    intro start h
    have h1 : start = last := by simpa using h
    simp [perIteration, h1]
  | succ k ih =>
    intro start h
    have h1 : start ≠ last := by push_cast at h; omega
    have h2 : start + 1 + (k : Int) = last := by push_cast at h; omega
    rw [perIteration, ih (start + 1) h2]
    simp [h1]

/-! ## The run past the usage check -/

section Run

variable {α : Type} (ops : Ops α) (env : Routines α) (ind : Indeterminate α)
  (tolerance : α) (argc : Int) (argv : List String)

/-- The function `main` is `mainWith` at the initialiser `0.0` of `tolerance`. -/
theorem main_eq_mainWith :
    main ops env ind argc argv = mainWith ops env ind ops.zero argc argv := rfl

theorem mainWith_usage (h : argc < 3 ∨ argc > 4) :
    mainWith ops env ind tolerance argc argv = Outcome.usage 0 [Event.printUsage] := by
  unfold mainWith
  rw [if_pos h]

theorem mainWith_run (h : argc = 3 ∨ argc = 4) :
    mainWith ops env ind tolerance argc argv
      = Outcome.finished 0 (setup ops env ind tolerance argc argv).1
          (finish ops env (setup ops env ind tolerance argc argv).1
            (loopExit ops env ind tolerance argc argv)) := by
  have h1 : ¬ (argc < 3 ∨ argc > 4) := by omega
  unfold mainWith
  rw [if_neg h1]
  rfl

theorem setup_numiter :
    (setup ops env ind tolerance argc argv).1.numiter = env.atoi (argv.getD 2 "") := rfl

theorem setup_irrotational :
    (setup ops env ind tolerance argc argv).1.irrotational
      = if argc = 4 then false else true := rfl

theorem setup_checkerr :
    (setup ops env ind tolerance argc argv).1.checkerr = checkerrOf ops tolerance := rfl

theorem setup_re :
    (setup ops env ind tolerance argc argv).1.re
      = ops.div (if argc = 4 then env.atof (argv.getD 3 "") else ops.negOne)
          (ops.ofInt (env.atoi (argv.getD 1 ""))) := rfl

theorem setup_iter : (setup ops env ind tolerance argc argv).2.iter = 1 := rfl

theorem setup_psi :
    (setup ops env ind tolerance argc argv).2.psi
      = env.boundarypsi (mbase * env.atoi (argv.getD 1 "")) (nbase * env.atoi (argv.getD 1 ""))
          (zeroGrid ops (mbase * env.atoi (argv.getD 1 "")) (nbase * env.atoi (argv.getD 1 ""))
            ind.psi)
          (bbase * env.atoi (argv.getD 1 "")) (hbase * env.atoi (argv.getD 1 ""))
          (wbase * env.atoi (argv.getD 1 "")) := rfl

theorem setup_psitmp : (setup ops env ind tolerance argc argv).2.psitmp = ind.psitmp := rfl

theorem setup_zettmp : (setup ops env ind tolerance argc argv).2.zettmp = ind.zettmp := rfl

theorem setup_zet_irrotational (h : argc ≠ 4) :
    (setup ops env ind tolerance argc argv).2.zet = ind.zet := by
  simp [setup, h]

theorem setup_bnorm :
    (setup ops env ind tolerance argc argv).1.bnorm
      = bnormOf ops (setup ops env ind tolerance argc argv).1.m
          (setup ops env ind tolerance argc argv).1.n
          (setup ops env ind tolerance argc argv).1.irrotational
          (setup ops env ind tolerance argc argv).2.psi
          (setup ops env ind tolerance argc argv).2.zet := by
  by_cases h : argc = 4 <;> simp [setup, bnormOf, h]

/-- The events of the setup: none is a step, a copy-back, a residual evaluation,
a report or the usage line; `boundaryzet` is called once in rotational mode. -/
theorem setup_trace_filter (p : Event α → Bool)
    (h1 : ∀ a b, p (Event.printConfig a b) = false)
    (h2 : ∀ a b c, p (Event.printConfigTol a b c) = false)
    (h3 : p Event.printIrrotational = false)
    (h4 : ∀ a, p (Event.printReynolds a) = false)
    (h5 : ∀ a b, p (Event.printGrid a b) = false)
    (h6 : ∀ a b c d e, p (Event.callBoundarypsi a b c d e) = false)
    (h7 : p Event.printStart = false)
    (h8 : p Event.callGettime = false) :
    (setup ops env ind tolerance argc argv).2.trace.filter p
      = if argc = 4 then [Event.callBoundaryzet].filter p else [] := by
  by_cases h : argc = 4 <;> cases hc : checkerrOf ops tolerance <;>
    simp [-List.getD_eq_getElem?_getD, setup, h, hc, h1, h2, h3, h4, h5, h6, h7, h8,
      List.filter_cons]

theorem finish_trace (cfg : Config α) (s : State α) :
    (finish ops env cfg s).trace = s.trace ++ finishEvents ops env cfg s := by
  simp [finish, finishEvents]

theorem finish_iter (cfg : Config α) (s : State α) :
    (finish ops env cfg s).iter = if s.iter > cfg.numiter then cfg.numiter else s.iter := rfl

theorem loopExit_eq_stateAfter :
    loopExit ops env ind tolerance argc argv
      = stateAfter ops env ind tolerance argc argv (env.atoi (argv.getD 2 "")).toNat := rfl

/-- After `k` turns within the trip count, `iter` is `k + 1`. -/
theorem stateAfter_iter (k : Nat) (hk : (k : Int) ≤ env.atoi (argv.getD 2 "")) :
    (stateAfter ops env ind tolerance argc argv k).iter = k + 1 := by
  unfold stateAfter
  rw [mainLoop_iter, setup_iter]
  · omega
  · right; rw [setup_iter, setup_numiter]; omega

/-- The loop is left with its guard false: `iter` is one more than the trip count. -/
theorem loopExit_iter :
    (loopExit ops env ind tolerance argc argv).iter
      = 1 + ((env.atoi (argv.getD 2 "")).toNat : Int) := by
  unfold loopExit
  rw [mainLoop_iter, setup_iter, setup_numiter]
  rw [setup_iter, setup_numiter]
  exact trip_count_ok _

theorem loopExit_guard :
    ¬ ((loopExit ops env ind tolerance argc argv).iter ≤ env.atoi (argv.getD 2 "")) := by
  rw [loopExit_iter]; omega

/-- The iteration count of the final summary is `numiter`. -/
theorem final_iter :
    (finish ops env (setup ops env ind tolerance argc argv).1
      (loopExit ops env ind tolerance argc argv)).iter = env.atoi (argv.getD 2 "") := by
  rw [finish_iter, setup_numiter, if_pos]
  have := loopExit_guard ops env ind tolerance argc argv
  omega

/-- The turn that ends iteration `k + 1`. -/
theorem stateAfter_succ (k : Nat) (hk : (k : Int) + 1 ≤ env.atoi (argv.getD 2 "")) :
    stateAfter ops env ind tolerance argc argv (k + 1)
      = loopTurn ops env (setup ops env ind tolerance argc argv).1
          (stateAfter ops env ind tolerance argc argv k) := by
  unfold stateAfter
  apply mainLoop_succ
  rw [setup_iter, setup_numiter]; omega

/-- The selected events of the whole loop. -/
theorem loopExit_filter (p : Event α → Bool) (g : Int → List (Event α))
    (hg : ∀ iter error,
      (bodyEvents (setup ops env ind tolerance argc argv).1 iter error).filter p = g iter) :
    (loopExit ops env ind tolerance argc argv).trace.filter p
      = (setup ops env ind tolerance argc argv).2.trace.filter p
        ++ perIteration g 1 (env.atoi (argv.getD 2 "")).toNat := by
  unfold loopExit
  rw [mainLoop_filter ops env _ p g hg, setup_iter, setup_numiter]
  rw [setup_iter, setup_numiter]
  exact trip_count_ok _

/-- The events of the final summary carry `numiter` as iteration count. -/
theorem finishEvents_loopExit :
    finishEvents ops env (setup ops env ind tolerance argc argv).1
        (loopExit ops env ind tolerance argc argv)
      = [Event.callGettime, Event.printFinished,
         Event.printAfter (env.atoi (argv.getD 2 ""))
           (loopExit ops env ind tolerance argc argv).error,
         Event.printTime (env.atoi (argv.getD 2 ""))
           (ops.sub (env.gettime 1) (setup ops env ind tolerance argc argv).1.tstart),
         Event.printEach (ops.div
           (ops.sub (env.gettime 1) (setup ops env ind tolerance argc argv).1.tstart)
           (ops.ofInt (env.atoi (argv.getD 2 "")))),
         Event.printDone] := by
  have hgt : (loopExit ops env ind tolerance argc argv).iter
      > (setup ops env ind tolerance argc argv).1.numiter := by
    have := loopExit_guard ops env ind tolerance argc argv
    rw [setup_numiter]; omega
  unfold finishEvents
  rw [if_pos hgt, setup_numiter]

/-- The selected events of a whole run past the usage check: those of the setup,
of the iterations and of the final summary. -/
theorem final_trace_filter (p : Event α → Bool) (g : Int → List (Event α))
    (hg : ∀ iter error,
      (bodyEvents (setup ops env ind tolerance argc argv).1 iter error).filter p = g iter)
    (h1 : ∀ a b, p (Event.printConfig a b) = false)
    (h2 : ∀ a b c, p (Event.printConfigTol a b c) = false)
    (h3 : p Event.printIrrotational = false)
    (h4 : ∀ a, p (Event.printReynolds a) = false)
    (h5 : ∀ a b, p (Event.printGrid a b) = false)
    (h6 : ∀ a b c d e, p (Event.callBoundarypsi a b c d e) = false)
    (h7 : p Event.printStart = false)
    (h8 : p Event.callGettime = false) :
    (finish ops env (setup ops env ind tolerance argc argv).1
        (loopExit ops env ind tolerance argc argv)).trace.filter p
      = (if argc = 4 then [Event.callBoundaryzet].filter p else [])
        ++ perIteration g 1 (env.atoi (argv.getD 2 "")).toNat
        ++ (finishEvents ops env (setup ops env ind tolerance argc argv).1
            (loopExit ops env ind tolerance argc argv)).filter p := by
  rw [finish_trace, List.filter_append,
    loopExit_filter ops env ind tolerance argc argv p g hg,
    setup_trace_filter ops env ind tolerance argc argv p h1 h2 h3 h4 h5 h6 h7 h8]

end Run

/-! ## The events of one iteration, by kind -/

section BodyEvents

variable {α : Type} (cfg : Config α) (iter : Int) (error : α)

theorem body_filter_usage : (bodyEvents cfg iter error).filter Event.isUsage = [] := by
  cases hI : cfg.irrotational <;> cases hC : cfg.checkerr <;>
    by_cases hN : iter = cfg.numiter <;> by_cases hP : Int.tmod iter printfreq = 0 <;>
    simp [bodyEvents, stepEvent, errEvents, copyEvents, bcEvents, printEvents, hI, hC, hN, hP,
      Event.isUsage]

theorem body_filter_report : (bodyEvents cfg iter error).filter Event.isReport = [] := by
  cases hI : cfg.irrotational <;> cases hC : cfg.checkerr <;>
    by_cases hN : iter = cfg.numiter <;> by_cases hP : Int.tmod iter printfreq = 0 <;>
    simp [bodyEvents, stepEvent, errEvents, copyEvents, bcEvents, printEvents, hI, hC, hN, hP,
      Event.isReport]

theorem body_filter_step :
    (bodyEvents cfg iter error).filter Event.isStep = [stepEvent cfg iter] := by
  cases hI : cfg.irrotational <;> cases hC : cfg.checkerr <;>
    by_cases hN : iter = cfg.numiter <;> by_cases hP : Int.tmod iter printfreq = 0 <;>
    simp [bodyEvents, stepEvent, errEvents, copyEvents, bcEvents, printEvents, hI, hC, hN, hP,
      Event.isStep]

theorem body_filter_step_copy :
    (bodyEvents cfg iter error).filter (fun e => e.isStep || e.isCopyPsi)
      = [stepEvent cfg iter, Event.copyPsi iter] := by
  cases hI : cfg.irrotational <;> cases hC : cfg.checkerr <;>
    by_cases hN : iter = cfg.numiter <;> by_cases hP : Int.tmod iter printfreq = 0 <;>
    simp [bodyEvents, stepEvent, errEvents, copyEvents, bcEvents, printEvents, hI, hC, hN, hP,
      Event.isStep, Event.isCopyPsi]

theorem body_filter_deltasq :
    (bodyEvents cfg iter error).filter Event.isDeltasq = errEvents cfg iter := by
  cases hI : cfg.irrotational <;> cases hC : cfg.checkerr <;>
    by_cases hN : iter = cfg.numiter <;> by_cases hP : Int.tmod iter printfreq = 0 <;>
    simp [bodyEvents, stepEvent, errEvents, copyEvents, bcEvents, printEvents, hI, hC, hN, hP,
      Event.isDeltasq]

theorem body_filter_boundaryzet :
    (bodyEvents cfg iter error).filter Event.isBoundaryzet = bcEvents cfg := by
  cases hI : cfg.irrotational <;> cases hC : cfg.checkerr <;>
    by_cases hN : iter = cfg.numiter <;> by_cases hP : Int.tmod iter printfreq = 0 <;>
    simp [bodyEvents, stepEvent, errEvents, copyEvents, bcEvents, printEvents, hI, hC, hN, hP,
      Event.isBoundaryzet]

theorem body_filter_copy_boundaryzet :
    (bodyEvents cfg iter error).filter (fun e => e.isCopy || e.isBoundaryzet)
      = copyEvents cfg iter ++ bcEvents cfg := by
  cases hI : cfg.irrotational <;> cases hC : cfg.checkerr <;>
    by_cases hN : iter = cfg.numiter <;> by_cases hP : Int.tmod iter printfreq = 0 <;>
    simp [bodyEvents, stepEvent, errEvents, copyEvents, bcEvents, printEvents, hI, hC, hN, hP,
      Event.isCopy, Event.isBoundaryzet]

end BodyEvents

/-! ## The claims -/

section Claims

variable {α : Type} (ops : Ops α) (env : Routines α) (ind : Indeterminate α)
  (tolerance : α) (argc : Int) (argv : List String)

/-- C1. When `argc` is below 3 or above 4, `main` prints the usage line and
returns 0 and nothing else happens: the trace is the usage line alone, so no
boundary routine, no Jacobi step and no iteration is run. When `argc` is 3 or 4
the run goes to the return of line 280 and never prints the usage line. The
value returned is 0 in every case. This holds for every initialiser of
`tolerance`, the `0.0` of `main` included. -/
theorem usage_on_wrong_arg_count :
    (argc < 3 ∨ argc > 4 →
      mainWith ops env ind tolerance argc argv = Outcome.usage 0 [Event.printUsage]
      ∧ main ops env ind argc argv = Outcome.usage 0 [Event.printUsage]) ∧
    (argc = 3 ∨ argc = 4 →
      ∃ cfg s, mainWith ops env ind tolerance argc argv = Outcome.finished 0 cfg s
        ∧ s.trace.filter Event.isUsage = []) ∧
    (mainWith ops env ind tolerance argc argv).ret = 0 := by
  refine ⟨fun h => ⟨mainWith_usage ops env ind tolerance argc argv h,
    mainWith_usage ops env ind ops.zero argc argv h⟩, fun h => ?_, ?_⟩
  · refine ⟨_, _, mainWith_run ops env ind tolerance argc argv h, ?_⟩
    rw [final_trace_filter ops env ind tolerance argc argv Event.isUsage (fun _ => [])
        (fun iter error => body_filter_usage _ iter error)
        (fun _ _ => rfl) (fun _ _ _ => rfl) rfl (fun _ => rfl) (fun _ _ => rfl)
        (fun _ _ _ _ _ => rfl) rfl rfl,
      perIteration_nil, finishEvents_loopExit]
    rcases h with rfl | rfl <;> rfl
  · unfold mainWith
    split <;> rfl

/-- C3. With a third positional argument (`argc = 4`) the run is rotational:
every step of the loop is a call of `jacobistepvort`, and the `re` it receives
is the value parsed by `atof` divided by `(double)scalefactor`, whatever that
value is. Without it (`argc = 3`) the run is irrotational: every step is a call
of `jacobistep` and `jacobistepvort` is never called. -/
theorem mode_selection_and_reynolds :
    (argc = 4 →
      ∃ cfg s, mainWith ops env ind tolerance argc argv = Outcome.finished 0 cfg s
        ∧ cfg.irrotational = false
        ∧ cfg.re = ops.div (env.atof (argv.getD 3 "")) (ops.ofInt (env.atoi (argv.getD 1 "")))
        ∧ s.trace.filter Event.isStep
            = perIteration (fun i => [Event.callJacobistepvort i
                (ops.div (env.atof (argv.getD 3 "")) (ops.ofInt (env.atoi (argv.getD 1 ""))))])
              1 (env.atoi (argv.getD 2 "")).toNat
        ∧ ∀ t : State α,
            (stepPhase env cfg t).zettmp
              = (env.jacobistepvort cfg.m cfg.n t.zettmp t.psitmp t.zet t.psi
                  (ops.div (env.atof (argv.getD 3 ""))
                    (ops.ofInt (env.atoi (argv.getD 1 ""))))).1
            ∧ (stepPhase env cfg t).psitmp
              = (env.jacobistepvort cfg.m cfg.n t.zettmp t.psitmp t.zet t.psi
                  (ops.div (env.atof (argv.getD 3 ""))
                    (ops.ofInt (env.atoi (argv.getD 1 ""))))).2) ∧
    (argc = 3 →
      ∃ cfg s, mainWith ops env ind tolerance argc argv = Outcome.finished 0 cfg s
        ∧ cfg.irrotational = true
        ∧ s.trace.filter Event.isStep
            = perIteration (fun i => [Event.callJacobistep i]) 1
                (env.atoi (argv.getD 2 "")).toNat
        ∧ ∀ t : State α,
            (stepPhase env cfg t).psitmp = env.jacobistep cfg.m cfg.n t.psitmp t.psi) := by
  constructor
  · intro h
    subst h
    have hI : (setup ops env ind tolerance 4 argv).1.irrotational = false := rfl
    have hre : (setup ops env ind tolerance 4 argv).1.re
        = ops.div (env.atof (argv.getD 3 "")) (ops.ofInt (env.atoi (argv.getD 1 ""))) := rfl
    refine ⟨_, _, mainWith_run ops env ind tolerance 4 argv (Or.inr rfl), hI, hre, ?_, ?_⟩
    · have hg : (fun i => [stepEvent (setup ops env ind tolerance 4 argv).1 i])
          = (fun i => [Event.callJacobistepvort i
              (ops.div (env.atof (argv.getD 3 "")) (ops.ofInt (env.atoi (argv.getD 1 ""))))]) := by
        funext i
        simp only [stepEvent, hI, hre]
        rfl
      rw [final_trace_filter ops env ind tolerance 4 argv _
          (fun i => [stepEvent (setup ops env ind tolerance 4 argv).1 i])
          (fun iter error => body_filter_step _ iter error)
          (fun _ _ => rfl) (fun _ _ _ => rfl) rfl (fun _ => rfl) (fun _ _ => rfl)
          (fun _ _ _ _ _ => rfl) rfl rfl,
        finishEvents_loopExit, hg]
      simp [-List.getD_eq_getElem?_getD, Event.isStep]
    · intro t
      rw [stepPhase_zettmp, stepPhase_psitmp, hI, hre]
      exact ⟨rfl, rfl⟩
  · intro h
    subst h
    have hI : (setup ops env ind tolerance 3 argv).1.irrotational = true := rfl
    refine ⟨_, _, mainWith_run ops env ind tolerance 3 argv (Or.inl rfl), hI, ?_, ?_⟩
    · have hg : (fun i => [stepEvent (setup ops env ind tolerance 3 argv).1 i])
          = (fun i => [Event.callJacobistep i]) := by
        funext i
        simp only [stepEvent, hI]
        rfl
      rw [final_trace_filter ops env ind tolerance 3 argv _
          (fun i => [stepEvent (setup ops env ind tolerance 3 argv).1 i])
          (fun iter error => body_filter_step _ iter error)
          (fun _ _ => rfl) (fun _ _ _ => rfl) rfl (fun _ => rfl) (fun _ _ => rfl)
          (fun _ _ _ _ _ => rfl) rfl rfl,
        finishEvents_loopExit, hg]
      simp [-List.getD_eq_getElem?_getD, Event.isStep]
    · intro t
      rw [stepPhase_psitmp, hI]
      rfl

/-- C4. For a run with `numiter ≥ 1`, let `pre` be the state at the start of the
last iteration and `stepped` the state after its Jacobi step. The error of the
final summary is `sqrt(D) / bnorm`, where `D` is `deltasq(m,n,psitmp,psi)` in
irrotational mode and `deltasq(m,n,psitmp,psi) + deltasq(m,n,zettmp,zet)` in
rotational mode, taken between the scratch arrays the last step wrote and the
live arrays of before the copy-back of that iteration, and where `bnorm` is the
value computed before the loop. -/
theorem final_error_formula (hargc : argc = 3 ∨ argc = 4)
    (hn : 1 ≤ env.atoi (argv.getD 2 "")) :
    ∃ cfg s pre stepped,
      mainWith ops env ind tolerance argc argv = Outcome.finished 0 cfg s
      ∧ pre = stateAfter ops env ind tolerance argc argv ((env.atoi (argv.getD 2 "")).toNat - 1)
      ∧ pre.iter = env.atoi (argv.getD 2 "")
      ∧ stepped = stepPhase env cfg pre
      ∧ s.psitmp = stepped.psitmp ∧ s.zettmp = stepped.zettmp
      ∧ s.psi = copyBack cfg.m cfg.n pre.psi stepped.psitmp
      ∧ s.error = ops.div (ops.sqrt
          (if cfg.irrotational then env.deltasq cfg.m cfg.n stepped.psitmp pre.psi
           else ops.add (env.deltasq cfg.m cfg.n stepped.psitmp pre.psi)
                  (env.deltasq cfg.m cfg.n stepped.zettmp pre.zet))) cfg.bnorm
      ∧ cfg.bnorm = bnormOf ops cfg.m cfg.n cfg.irrotational
          (setup ops env ind tolerance argc argv).2.psi
          (setup ops env ind tolerance argc argv).2.zet
      ∧ s.trace.filter Event.isReport = [Event.printAfter (env.atoi (argv.getD 2 "")) s.error] := by
  obtain ⟨k, hk⟩ : ∃ k : Nat, (env.atoi (argv.getD 2 "")).toNat = k + 1 :=
    ⟨(env.atoi (argv.getD 2 "")).toNat - 1, by omega⟩
  have hkN : (k : Int) + 1 = env.atoi (argv.getD 2 "") := by omega
  have hpre : (stateAfter ops env ind tolerance argc argv k).iter
      = env.atoi (argv.getD 2 "") := by
    rw [stateAfter_iter ops env ind tolerance argc argv k (by omega)]; omega
  have hexit : loopExit ops env ind tolerance argc argv
      = loopTurn ops env (setup ops env ind tolerance argc argv).1
          (stateAfter ops env ind tolerance argc argv k) := by
    rw [loopExit_eq_stateAfter, hk]
    exact stateAfter_succ ops env ind tolerance argc argv k (by omega)
  refine ⟨_, _, stateAfter ops env ind tolerance argc argv k, _,
    mainWith_run ops env ind tolerance argc argv hargc, ?_, hpre, rfl, ?_, ?_, ?_, ?_,
    setup_bnorm ops env ind tolerance argc argv, ?_⟩
  · rw [hk]; rfl
  · show (loopExit ops env ind tolerance argc argv).psitmp = _
    rw [hexit, loopTurn_psitmp, loopBody_psitmp]
  · show (loopExit ops env ind tolerance argc argv).zettmp = _
    rw [hexit, loopTurn_zettmp, loopBody_zettmp]
  · show (loopExit ops env ind tolerance argc argv).psi = _
    rw [hexit, loopTurn_psi, loopBody_psi]
  · show (loopExit ops env ind tolerance argc argv).error = _
    rw [hexit, loopTurn_error, loopBody_error, errorPhase_error, stepPhase_iter, hpre,
      setup_numiter]
    simp [-List.getD_eq_getElem?_getD]
  · rw [final_trace_filter ops env ind tolerance argc argv _ (fun _ => [])
        (fun iter error => body_filter_report _ iter error)
        (fun _ _ => rfl) (fun _ _ _ => rfl) rfl (fun _ => rfl) (fun _ _ => rfl)
        (fun _ _ _ _ _ => rfl) rfl rfl,
      perIteration_nil, finishEvents_loopExit]
    rcases hargc with rfl | rfl <;> rfl

/-- The normalisation factor is the same for two field states that agree on
every cell of the arrays. -/
theorem bnormOf_congr {α : Type} (ops : Ops α) (m n : Int) (irrotational : Bool)
    (psi1 zet1 psi2 zet2 : Grid α)
    (hpsi : ∀ i j, 0 ≤ i → i < m + 2 → 0 ≤ j → j < n + 2 → psi1 i j = psi2 i j)
    (hzet : irrotational = false →
      ∀ i j, 0 ≤ i → i < m + 2 → 0 ≤ j → j < n + 2 → zet1 i j = zet2 i j) :
    bnormOf ops m n irrotational psi1 zet1 = bnormOf ops m n irrotational psi2 zet2 := by
  unfold bnormOf
  cases irrotational with
  | true => simp [sumSquares_congr ops m n psi1 psi2 ops.zero hpsi]
  | false =>
    simp [sumSquares_congr ops m n psi1 psi2 ops.zero hpsi,
      sumSquares_congr ops m n zet1 zet2 _ (hzet rfl)]

/-- A remark on lines 233-240, whose test and `break` are commented out: were
the initialiser of `tolerance` 1 instead of `0.0`, checking would be enabled,
and in the run `cfd 1 2` the normalised residual of iteration 1 would be 1/4,
below the tolerance, while the run would still make and report 2 iterations. No
run of `main` is in that case. -/
theorem tolerance_does_not_stop_the_loop :
    checkerrOf ratOps 1 = true
    ∧ (stateAfter ratOps sampleEnv sampleInd 1 3 ["cfd", "1", "2"] 1).error = 1 / 4
    ∧ ratOps.gt 1 (1 / 4) = true
    ∧ (mainWith ratOps sampleEnv sampleInd 1 3 ["cfd", "1", "2"]).final.map
        (fun s => (s.iter, s.trace.filter Event.isStep))
        = some (2, [Event.callJacobistep 1, Event.callJacobistep 2]) := by
  refine ⟨by decide, ?_, by decide!, ?_⟩
  · simp only [stateAfter, setup, zeroGrid_eq, mainLoop, loopTurn, loopBody, copyBack_eq,
      stepPhase, errorPhase, copyPhase, boundaryPhase, printPhase]
    decide!
  · decide!

/-- A remark on lines 233-240: the loop has no exit on tolerance. For every
initialiser of `tolerance`, checking enabled or not, and whatever the residuals
are, the guard holds at the start of each of the iterations 1 to `numiter`, the
loop is left with `iter = numiter + 1`, and the run makes and reports `numiter`
iterations. -/
theorem loop_ends_at_numiter (hargc : argc = 3 ∨ argc = 4)
    (hn : 1 ≤ env.atoi (argv.getD 2 "")) :
    ∃ cfg s, mainWith ops env ind tolerance argc argv = Outcome.finished 0 cfg s
      ∧ (∀ k : Nat, (k : Int) < cfg.numiter →
          (stateAfter ops env ind tolerance argc argv k).iter = k + 1
          ∧ (stateAfter ops env ind tolerance argc argv k).iter ≤ cfg.numiter
          ∧ stateAfter ops env ind tolerance argc argv (k + 1)
              = loopTurn ops env cfg (stateAfter ops env ind tolerance argc argv k))
      ∧ (loopExit ops env ind tolerance argc argv).iter = cfg.numiter + 1
      ∧ ((s.trace.filter Event.isStep).length : Int) = cfg.numiter
      ∧ s.iter = cfg.numiter := by
  refine ⟨_, _, mainWith_run ops env ind tolerance argc argv hargc, ?_, ?_, ?_,
    final_iter ops env ind tolerance argc argv⟩
  · intro k hk
    rw [setup_numiter] at hk
    have h1 := stateAfter_iter ops env ind tolerance argc argv k (by omega)
    refine ⟨h1, ?_, stateAfter_succ ops env ind tolerance argc argv k (by omega)⟩
    rw [h1, setup_numiter]; omega
  · rw [loopExit_iter, setup_numiter]; omega
  · rw [final_trace_filter ops env ind tolerance argc argv _
        (fun i => [stepEvent (setup ops env ind tolerance argc argv).1 i])
        (fun iter error => body_filter_step _ iter error)
        (fun _ _ => rfl) (fun _ _ _ => rfl) rfl (fun _ => rfl) (fun _ _ => rfl)
        (fun _ _ _ _ _ => rfl) rfl rfl,
      finishEvents_loopExit, setup_numiter]
    have hlen := perIteration_length_one
      (fun i => [stepEvent (setup ops env ind tolerance argc argv).1 i]) (fun _ => rfl)
      (env.atoi (argv.getD 2 "")).toNat 1
    rcases hargc with rfl | rfl <;>
      simp [-List.getD_eq_getElem?_getD, Event.isStep, hlen] <;> omega

/-- C8, the counterexample. After the copy-back of the only iteration of the run
`cfd 1 1`, the halo cell `[33][1]` of psi holds the boundary value 5 and the same
cell of psitmp holds what it held before the loop, here 0; and at the end of the
only iteration of the rotational run `cfd 1 1 2` the halo cell `[33][1]` of zet
holds 15/2 and the same cell of zettmp holds what it held before the loop. -/
theorem copy_back_leaves_halo_apart :
    (mainWith ratOps sampleEnv sampleInd 0 3 ["cfd", "1", "1"]).final.map
        (fun s => (s.psi 33 1, s.psitmp 33 1)) = some (5, 0)
    ∧ (mainWith ratOps sampleEnv sampleInd 0 4 ["cfd", "1", "1", "2"]).final.map
        (fun s => (s.zet 33 1, s.zettmp 33 1)) = some (15 / 2, 0) := by
  constructor
  · simp only [mainWith, setup, zeroGrid_eq, mainLoop, loopTurn, loopBody, copyBack_eq,
      stepPhase, errorPhase, copyPhase, boundaryPhase, printPhase, finish]
    decide!
  · simp only [mainWith, setup, zeroGrid_eq, mainLoop, loopTurn, loopBody, copyBack_eq,
      stepPhase, errorPhase, copyPhase, boundaryPhase, printPhase, finish]
    decide!

/-- C8, amended. Right after the copy-back of an iteration, whatever the state
the iteration started in, psi and psitmp hold equal values at every interior
cell `1..m` x `1..n`, and so do zet and zettmp in rotational mode. This still
holds at the end of the iteration, when the next Jacobi step is about to write
the scratch arrays, and in the final state of a run with `numiter ≥ 1`: for psi
always, and for zet at every interior cell that `boundaryzet` leaves as it
finds it. Halo cells are not copied. -/
theorem copy_back_interior_agree (hargc : argc = 3 ∨ argc = 4)
    (hn : 1 ≤ env.atoi (argv.getD 2 "")) :
    ∃ cfg s, mainWith ops env ind tolerance argc argv = Outcome.finished 0 cfg s
      ∧ (argc = 4 → cfg.irrotational = false)
      ∧ (∀ (t : State α) (i j : Int), 1 ≤ i → i ≤ cfg.m → 1 ≤ j → j ≤ cfg.n →
          (afterCopyBack ops env cfg t).psi i j = (afterCopyBack ops env cfg t).psitmp i j
          ∧ (cfg.irrotational = false →
              (afterCopyBack ops env cfg t).zet i j = (afterCopyBack ops env cfg t).zettmp i j)
          ∧ (loopTurn ops env cfg t).psi i j = (loopTurn ops env cfg t).psitmp i j
          ∧ (cfg.irrotational = false →
              (∀ zet psi : Grid α, env.boundaryzet cfg.m cfg.n zet psi i j = zet i j) →
              (loopTurn ops env cfg t).zet i j = (loopTurn ops env cfg t).zettmp i j))
      ∧ (∀ i j : Int, 1 ≤ i → i ≤ cfg.m → 1 ≤ j → j ≤ cfg.n →
          s.psi i j = s.psitmp i j
          ∧ (cfg.irrotational = false →
              (∀ zet psi : Grid α, env.boundaryzet cfg.m cfg.n zet psi i j = zet i j) →
              s.zet i j = s.zettmp i j)) := by
  have hturn : ∀ (cfg : Config α) (t : State α) (i j : Int),
      1 ≤ i → i ≤ cfg.m → 1 ≤ j → j ≤ cfg.n →
      (loopTurn ops env cfg t).psi i j = (loopTurn ops env cfg t).psitmp i j := by
    intro cfg t i j h1 h2 h3 h4
    rw [loopTurn_psi, loopTurn_psitmp, loopBody_psi, loopBody_psitmp, copyBack_eq]
    exact if_pos ⟨h1, h2, h3, h4⟩
  have hturnz : ∀ (cfg : Config α) (t : State α) (i j : Int),
      1 ≤ i → i ≤ cfg.m → 1 ≤ j → j ≤ cfg.n → cfg.irrotational = false →
      (∀ zet psi : Grid α, env.boundaryzet cfg.m cfg.n zet psi i j = zet i j) →
      (loopTurn ops env cfg t).zet i j = (loopTurn ops env cfg t).zettmp i j := by
    intro cfg t i j h1 h2 h3 h4 hI hbz
    rw [loopTurn_zet, loopTurn_zettmp, loopBody_zet, loopBody_zettmp, hI]
    show env.boundaryzet cfg.m cfg.n _ _ i j = _
    rw [hbz, copyBack_eq]
    exact if_pos ⟨h1, h2, h3, h4⟩
  refine ⟨_, _, mainWith_run ops env ind tolerance argc argv hargc, ?_, ?_, ?_⟩
  · intro h4
    rw [setup_irrotational, if_pos h4]
  · intro t i j h1 h2 h3 h4
    refine ⟨?_, ?_, hturn _ t i j h1 h2 h3 h4, hturnz _ t i j h1 h2 h3 h4⟩
    · simp only [afterCopyBack, copyPhase_psi, copyPhase_psitmp, errorPhase_psi,
        errorPhase_psitmp, copyBack_eq]
      exact if_pos ⟨h1, h2, h3, h4⟩
    · intro hI
      simp only [afterCopyBack, copyPhase_zet, copyPhase_zettmp, errorPhase_zet,
        errorPhase_zettmp, copyBack_eq, hI]
      exact if_pos ⟨h1, h2, h3, h4⟩
  · intro i j h1 h2 h3 h4
    obtain ⟨k, hk⟩ : ∃ k : Nat, (env.atoi (argv.getD 2 "")).toNat = k + 1 :=
      ⟨(env.atoi (argv.getD 2 "")).toNat - 1, by omega⟩
    have hexit : loopExit ops env ind tolerance argc argv
        = loopTurn ops env (setup ops env ind tolerance argc argv).1
            (stateAfter ops env ind tolerance argc argv k) := by
      rw [loopExit_eq_stateAfter, hk]
      exact stateAfter_succ ops env ind tolerance argc argv k (by omega)
    constructor
    · show (loopExit ops env ind tolerance argc argv).psi i j
        = (loopExit ops env ind tolerance argc argv).psitmp i j
      rw [hexit]
      exact hturn _ _ i j h1 h2 h3 h4
    · intro hI hbz
      show (loopExit ops env ind tolerance argc argv).zet i j
        = (loopExit ops env ind tolerance argc argv).zettmp i j
      rw [hexit]
      exact hturnz _ _ i j h1 h2 h3 h4 hI hbz

/-- C10. Every halo cell of psi (row 0, row `m+1`, column 0, column `n+1`) holds
at the end of the run, whatever `numiter` and the mode are, the value the call
of `boundarypsi` of the setup gave it: the loop writes psi in the copy-back
only, and the copy-back assigns the cells `1..m` x `1..n` only. -/
theorem psi_halo_frame (hargc : argc = 3 ∨ argc = 4) :
    ∃ cfg s, mainWith ops env ind tolerance argc argv = Outcome.finished 0 cfg s
      ∧ ∀ i j : Int, (i = 0 ∨ i = cfg.m + 1 ∨ j = 0 ∨ j = cfg.n + 1) →
          s.psi i j
            = env.boundarypsi cfg.m cfg.n (zeroGrid ops cfg.m cfg.n ind.psi)
                cfg.b cfg.h cfg.w i j := by
  refine ⟨_, _, mainWith_run ops env ind tolerance argc argv hargc, ?_⟩
  intro i j hhalo
  have hinv := mainLoop_preserves ops env (setup ops env ind tolerance argc argv).1
    (fun t => t.psi i j = (setup ops env ind tolerance argc argv).2.psi i j)
    (by
      intro t ht
      have hni : ¬ (1 ≤ i ∧ i ≤ (setup ops env ind tolerance argc argv).1.m ∧ 1 ≤ j
          ∧ j ≤ (setup ops env ind tolerance argc argv).1.n) := by omega
      show (loopTurn ops env _ t).psi i j = _
      rw [loopTurn_psi, loopBody_psi, copyBack_eq]
      show (if _ then _ else _) = _
      rw [if_neg hni]
      exact ht)
    (env.atoi (argv.getD 2 "")).toNat (setup ops env ind tolerance argc argv).2 rfl
  exact hinv

end Claims

/-! ## Instances of the theorems -/

/-- C1, an instance: `cfd` alone prints the usage line and nothing else, and
`cfd 1 100` never prints it. -/
theorem usage_on_wrong_arg_count_witness :
    ((1 : Int) < 3 ∨ (1 : Int) > 4)
    ∧ main ratOps sampleEnv sampleInd 1 ["cfd"] = Outcome.usage 0 [Event.printUsage]
    ∧ ((3 : Int) = 3 ∨ (3 : Int) = 4)
    ∧ ∃ cfg s, mainWith ratOps sampleEnv sampleInd 0 3 ["cfd", "1", "100"]
          = Outcome.finished 0 cfg s
        ∧ s.trace.filter Event.isUsage = [] :=
  ⟨by decide,
   ((usage_on_wrong_arg_count ratOps sampleEnv sampleInd 0 1 ["cfd"]).1 (by decide)).2,
   by decide,
   (usage_on_wrong_arg_count ratOps sampleEnv sampleInd 0 3 ["cfd", "1", "100"]).2.1
     (by decide)⟩

/-- C3, an instance: `cfd 1 1000 3` is rotational and `cfd 1 100` is
irrotational. -/
theorem mode_selection_and_reynolds_witness :
    (4 : Int) = 4
    ∧ (3 : Int) = 3
    ∧ (∃ cfg s, mainWith ratOps sampleEnv sampleInd 0 4 ["cfd", "1", "1000", "3"]
          = Outcome.finished 0 cfg s
        ∧ cfg.irrotational = false
        ∧ cfg.re = ratOps.div (sampleEnv.atof "3") (ratOps.ofInt (sampleEnv.atoi "1")))
    ∧ ∃ cfg s, mainWith ratOps sampleEnv sampleInd 0 3 ["cfd", "1", "100"]
          = Outcome.finished 0 cfg s
        ∧ cfg.irrotational = true := by
  obtain ⟨cfg, s, h1, h2, h3, _⟩ :=
    (mode_selection_and_reynolds ratOps sampleEnv sampleInd 0 4 ["cfd", "1", "1000", "3"]).1 rfl
  obtain ⟨cfg2, s2, k1, k2, _⟩ :=
    (mode_selection_and_reynolds ratOps sampleEnv sampleInd 0 3 ["cfd", "1", "100"]).2 rfl
  exact ⟨rfl, rfl, ⟨cfg, s, h1, h2, h3⟩, cfg2, s2, k1, k2⟩

/-- C4, an instance: the run `cfd 1 100`. -/
theorem final_error_formula_witness :
    ((3 : Int) = 3 ∨ (3 : Int) = 4)
    ∧ 1 ≤ sampleEnv.atoi (["cfd", "1", "100"].getD 2 "")
    ∧ ∃ cfg s pre, mainWith ratOps sampleEnv sampleInd 0 3 ["cfd", "1", "100"]
          = Outcome.finished 0 cfg s
        ∧ pre = stateAfter ratOps sampleEnv sampleInd 0 3 ["cfd", "1", "100"] 99
        ∧ s.error = ratOps.div (ratOps.sqrt
            (if cfg.irrotational then
               sampleEnv.deltasq cfg.m cfg.n (stepPhase sampleEnv cfg pre).psitmp pre.psi
             else ratOps.add
               (sampleEnv.deltasq cfg.m cfg.n (stepPhase sampleEnv cfg pre).psitmp pre.psi)
               (sampleEnv.deltasq cfg.m cfg.n (stepPhase sampleEnv cfg pre).zettmp pre.zet)))
            cfg.bnorm := by
  obtain ⟨cfg, s, pre, stepped, h1, h2, _, h4, _, _, _, h8, _⟩ :=
    final_error_formula ratOps sampleEnv sampleInd 0 3 ["cfd", "1", "100"]
      (by decide) (by decide)
  subst h4
  exact ⟨by decide, by decide, cfg, s, pre, h1, h2, h8⟩

/-- C8, an instance of the amended claim: at the end of the rotational run
`cfd 1 1 2`, psi and psitmp agree at every interior cell, and so do zet and
zettmp, the sample `boundaryzet` writing no interior cell. -/
theorem copy_back_interior_agree_witness :
    ((4 : Int) = 3 ∨ (4 : Int) = 4)
    ∧ 1 ≤ sampleEnv.atoi (["cfd", "1", "1", "2"].getD 2 "")
    ∧ ∃ cfg s, mainWith ratOps sampleEnv sampleInd 0 4 ["cfd", "1", "1", "2"]
          = Outcome.finished 0 cfg s
        ∧ ∀ i j : Int, 1 ≤ i → i ≤ cfg.m → 1 ≤ j → j ≤ cfg.n →
            s.psi i j = s.psitmp i j ∧ s.zet i j = s.zettmp i j := by
  obtain ⟨cfg, s, h1, h2, _, h4⟩ :=
    copy_back_interior_agree ratOps sampleEnv sampleInd 0 4 ["cfd", "1", "1", "2"]
      (by decide) (by decide)
  refine ⟨by decide, by decide, cfg, s, h1, ?_⟩
  intro i j a1 a2 a3 a4
  obtain ⟨b1, b2⟩ := h4 i j a1 a2 a3 a4
  exact ⟨b1, b2 (h2 rfl)
    (fun zet psi => sampleBoundaryzet_interior cfg.m cfg.n zet psi i j a1 a2 a3 a4)⟩

/-- C10, an instance: at the end of `cfd 1 100` the halo cell `[33][1]` of psi
holds the value the boundary routine wrote, 5. -/
theorem psi_halo_frame_witness :
    ((3 : Int) = 3 ∨ (3 : Int) = 4)
    ∧ (mainWith ratOps sampleEnv sampleInd 0 3 ["cfd", "1", "100"]).final.map
        (fun s => s.psi 33 1) = some 5 := by
  obtain ⟨cfg, s, h1, h2⟩ :=
    psi_halo_frame ratOps sampleEnv sampleInd 0 3 ["cfd", "1", "100"] (by decide)
  have hc : cfg = (setup ratOps sampleEnv sampleInd 0 3 ["cfd", "1", "100"]).1 := by
    have := congrArg Outcome.config h1
    rw [mainWith_run ratOps sampleEnv sampleInd 0 3 ["cfd", "1", "100"] (by decide)] at this
    simp only [Outcome.config, Option.some.injEq] at this
    exact this.symm
  have hm : cfg.m + 1 = 33 := by rw [hc]; decide
  refine ⟨by decide, ?_⟩
  rw [h1]
  show some (s.psi 33 1) = some 5
  rw [h2 33 1 (Or.inr (Or.inl hm.symm)), hc]
  simp only [setup, zeroGrid_eq, sampleEnv, sampleBoundarypsi, Grid.set]
  decide!

end Cfd
